import Mathlib

/-!
Verification of `digitalScope.py`.

A shallow embedding of `src/digitalScope.py` (a Python 2 / OpenCV script that
overlays an interactive crosshair on a live camera feed) together with proofs
about the claims of its specification.

Modelling conventions:
* An image (`Frame`) is a total function from integer pixel coordinates
  `(x, y)` (column, row — the coordinate order of OpenCV points) to a
  3-channel colour.  The image's dimensions, implicit in the numpy array in
  the Python source, are passed explicitly to the drawing models, which clip
  every stroke to the rectangle `[0, w-1] × [0, h-1]`.
* `cv2.line` is modelled for axis-aligned segments — the only segments this
  program ever draws: both endpoints are painted (inclusive rasterisation,
  independent of endpoint order), a thickness `t` stroke extends `t / 2`
  pixels to each side across the line, and everything is clipped to the
  image.  A non-axis-aligned call is outside the model and paints nothing.
* `cv2.circle` with negative thickness (the only way the program calls it)
  is modelled as the filled Euclidean disc, clipped to the image.
* Python 2 semantics: `/` on two ints is floor division (the script is from
  the Python 2 / early-cv2 era: hand-defined `CV_CAP_PROP_*` constants and a
  2015 reference), so `imageWidth/2` is an integer.
* `cv2.VideoCapture.read` returns `(False, None)` when the acquisition
  fails and `(True, frame)` when it succeeds; a camera read is therefore
  modelled by an `Option Frame` (`none` = failure).
* Mutation of the numpy array / of the module-level globals becomes explicit
  state passing; code that raises (e.g. `cv2.line` applied to `None`)
  returns `Except`.
-/

namespace DigitalScope

/-- A 3-channel (BGR) colour value. -/
abbrev Color := Int × Int × Int

/-- An image: a total assignment of colours to integer `(x, y)` pixel
coordinates.  Drawing clips to the explicit width/height arguments. -/
abbrev Frame := Int × Int → Color

/-- Constant `CROSSHAIR_COLOR = (0, 0, 255)` (pure red in BGR). -/
def CROSSHAIR_COLOR : Color := (0, 0, 255)

/-- Constant `CROSSHAIR_CENTER_SPACE = 10`. -/
def CROSSHAIR_CENTER_SPACE : Int := 10

/-- Constant `CROSSHAIR_ACCENT1_LENGTH = 21`. -/
def CROSSHAIR_ACCENT1_LENGTH : Int := 21

/-- Constant `CROSSHAIR_ACCENT2_LENGTH = 20`. -/
def CROSSHAIR_ACCENT2_LENGTH : Int := 20

/-- Value `c` lies (inclusively) between `a` and `b`, in either order — how a
rasterised segment covers its coordinate range independently of the order in
which its endpoints are given. -/
def between (a b c : Int) : Bool :=
  (decide (a ≤ c) && decide (c ≤ b)) || (decide (b ≤ c) && decide (c ≤ a))

/-- The pixel `q` lies inside a `w × h` image (clipping rectangle of every
drawing primitive). -/
def inClip (w h : Int) (q : Int × Int) : Bool :=
  decide (0 ≤ q.1) && decide (q.1 ≤ w - 1) && decide (0 ≤ q.2) && decide (q.2 ≤ h - 1)

/-- Model of the pixels painted by `cv2.line` on a `w × h` image, for the
axis-aligned segments this program draws: both endpoints inclusive (in either
order), thickness `t` extending `t / 2` pixels to each side across the line,
clipped to the image.  A diagonal call (never made here) paints nothing. -/
def onSeg (w h : Int) (p1 p2 : Int × Int) (t : Int) (q : Int × Int) : Bool :=
  inClip w h q &&
    ((decide (p1.2 = p2.2) && between p1.1 p2.1 q.1 &&
        decide (p1.2 - t / 2 ≤ q.2) && decide (q.2 ≤ p1.2 + t / 2)) ||
     (decide (p1.1 = p2.1) && between p1.2 p2.2 q.2 &&
        decide (p1.1 - t / 2 ≤ q.1) && decide (q.1 ≤ p1.1 + t / 2)))

/-- Model of the pixels painted by `cv2.circle` with negative thickness (a
filled disc), clipped to the image. -/
def onDisc (w h : Int) (center : Int × Int) (radius : Int) (q : Int × Int) : Bool :=
  inClip w h q &&
    decide ((q.1 - center.1) * (q.1 - center.1) + (q.2 - center.2) * (q.2 - center.2)
      ≤ radius * radius)

/-- Paint every pixel satisfying `mask` with `color`, leaving the rest of the
image unchanged — the common shape of both drawing primitives. -/
def paintIf (mask : Int × Int → Bool) (color : Color) (img : Frame) : Frame :=
  fun q => if mask q then color else img q

/-- Model of `renderLine(image, point1, point2, color, thickness)` — the source's thin
wrapper around `cv2.line`, with the image's dimensions made explicit. -/
def renderLine (image : Frame) (point1 point2 : Int × Int) (color : Color)
    (thickness : Int) (w h : Int) : Frame :=
  paintIf (onSeg w h point1 point2 thickness) color image

set_option linter.unusedVariables false in
/-- Model of `renderCircle(image, center, radius, color, thickness)` — the source's
thin wrapper around `cv2.circle`; modelled for the filled case
(`thickness < 0`), the only way the program calls it. -/
def renderCircle (image : Frame) (center : Int × Int) (radius : Int) (color : Color)
    (thickness : Int) (w h : Int) : Frame :=
  paintIf (onDisc w h center radius) color image

/-- Model of `renderCrossHair(frame, crossHairX, crossHairY, imageWidth, imageHeight)`:
the ten drawing calls of the source, in order — four 1px gapped arms, the
filled radius-1 centre disc, and four 3px accent ticks, all in
`CROSSHAIR_COLOR`. -/
def renderCrossHair (frame : Frame) (crossHairX crossHairY imageWidth imageHeight : Int) :
    Frame :=
  let img := renderLine frame
    (0, crossHairY) (crossHairX - CROSSHAIR_CENTER_SPACE, crossHairY)
    CROSSHAIR_COLOR 1 imageWidth imageHeight
  let img := renderLine img
    (crossHairX + CROSSHAIR_CENTER_SPACE, crossHairY) (imageWidth - 1, crossHairY)
    CROSSHAIR_COLOR 1 imageWidth imageHeight
  let img := renderLine img
    (crossHairX, 0) (crossHairX, crossHairY - CROSSHAIR_CENTER_SPACE)
    CROSSHAIR_COLOR 1 imageWidth imageHeight
  let img := renderLine img
    (crossHairX, crossHairY + CROSSHAIR_CENTER_SPACE) (crossHairX, imageHeight - 1)
    CROSSHAIR_COLOR 1 imageWidth imageHeight
  let img := renderCircle img
    (crossHairX, crossHairY) 1 CROSSHAIR_COLOR (-1) imageWidth imageHeight
  let img := renderLine img
    (0, crossHairY) (CROSSHAIR_ACCENT2_LENGTH, crossHairY)
    CROSSHAIR_COLOR 3 imageWidth imageHeight
  let img := renderLine img
    (imageWidth - CROSSHAIR_ACCENT1_LENGTH, crossHairY) (imageWidth - 1, crossHairY)
    CROSSHAIR_COLOR 3 imageWidth imageHeight
  let img := renderLine img
    (crossHairX, 0) (crossHairX, CROSSHAIR_ACCENT2_LENGTH)
    CROSSHAIR_COLOR 3 imageWidth imageHeight
  let img := renderLine img
    (crossHairX, imageHeight - CROSSHAIR_ACCENT1_LENGTH) (crossHairX, imageHeight - 1)
    CROSSHAIR_COLOR 3 imageWidth imageHeight
  img

/-- Model of `defaultCrossHair(capture)`: returns
`(imageWidth, imageHeight, crossHairX, crossHairY)` where the dimensions are
the capture source's reported `CV_CAP_PROP_FRAME_WIDTH/HEIGHT` (already
truncated to int by the source's `int(...)`) and the crosshair is put at
`(imageWidth/2, imageHeight/2)` — Python 2 integer (floor) division. -/
def defaultCrossHair (reportedWidth reportedHeight : Nat) : Nat × Nat × Nat × Nat :=
  (reportedWidth, reportedHeight, reportedWidth / 2, reportedHeight / 2)

/-- The module-level mutable pointer state: the globals
`crossHairX`, `crossHairY`, `mouseDown` of the source. -/
structure PointerState where
  crossHairX : Int
  crossHairY : Int
  mouseDown : Bool
  deriving Repr, DecidableEq

/-- The pointer events the `cv2` mouse callback can receive:
`EVENT_LBUTTONDOWN` (press), `EVENT_LBUTTONUP` (release), `EVENT_MOUSEMOVE`
(move), and any other event code (which the callback's `if/elif` chain
ignores). -/
inductive PointerEvent where
  | press (x y : Int)
  | release (x y : Int)
  | move (x y : Int)
  | other (x y : Int)
  deriving Repr, DecidableEq

/-- Model of `setCrossHair(mouseX, mouseY, mouseDown)`: if `mouseDown` is false,
return; otherwise set the `crossHairY`/`crossHairX` globals. -/
def setCrossHair (s : PointerState) (mouseX mouseY : Int) (mouseDown : Bool) :
    PointerState :=
  if !mouseDown then s
  else { s with crossHairY := mouseY, crossHairX := mouseX }

/-- Model of `getMouseCoordinates(event, x, y, flags, param)`: on `EVENT_LBUTTONDOWN`
set `mouseDown = True` and call `setCrossHair(x, y, mouseDown)`; on
`EVENT_LBUTTONUP` set `mouseDown = False`; on `EVENT_MOUSEMOVE` call
`setCrossHair(x, y, mouseDown)`; otherwise do nothing. -/
def getMouseCoordinates (s : PointerState) (e : PointerEvent) : PointerState :=
  match e with
  | .press x y =>
      let s := { s with mouseDown := true }
      setCrossHair s x y s.mouseDown
  | .release _ _ => { s with mouseDown := false }
  | .move x y => setCrossHair s x y s.mouseDown
  | .other _ _ => s

/-- Replay a sequence of pointer events through the callback. -/
def replayEvents (s : PointerState) (es : List PointerEvent) : PointerState :=
  es.foldl getMouseCoordinates s

/-- Modelled from the spec's characterisation of the replay result (not from
the code): the coordinates of the last `PRESS` event, or of the last `MOVE`
event delivered while dragging was true, whichever came later; `none` if no
such event occurred.  `dragging` is the drag flag in force before the first
event of the list. -/
def lastDragTarget (dragging : Bool) : List PointerEvent → Option (Int × Int)
  | [] => none
  | e :: rest =>
      let dragging' :=
        match e with
        | .press _ _ => true
        | .release _ _ => false
        | _ => dragging
      match lastDragTarget dragging' rest with
      | some c => some c
      | none =>
          match e with
          | .press x y => some (x, y)
          | .move x y => if dragging then some (x, y) else none
          | _ => none

/-- The state of a `VideoStream` object: the `grabbed`/`frame` slot written
by `__init__` and by the background `update` loop, and the `stopped` flag.
`grabbed = none` models the Python `None` the fields hold before the first
`stream.read()`. -/
structure VideoStreamState where
  grabbed : Option Bool
  frame : Option Frame
  stopped : Bool

/-- Model of `cv2.VideoCapture.read()`: a successful acquisition of frame
`f` gives `(True, f)`, a failed one gives `(False, None)`. -/
def streamRead (acq : Option Frame) : Bool × Option Frame :=
  match acq with
  | some f => (true, some f)
  | none => (false, none)

/-- Model of `VideoStream.__init__`: set `grabbed`/`frame` to `None`, perform the
first `stream.read()`, store its result, clear `stopped`.  `firstAcq` is
the outcome of that first acquisition. -/
def VideoStream.init (firstAcq : Option Frame) : VideoStreamState :=
  let r := streamRead firstAcq
  { grabbed := some r.1, frame := r.2, stopped := false }

/-- One iteration of `VideoStream.update`'s `while True` body: if `stopped`,
return (leave the slot alone); otherwise overwrite `grabbed, frame` with the
result of the next `stream.read()`. -/
def VideoStream.update (s : VideoStreamState) (acq : Option Frame) : VideoStreamState :=
  if s.stopped then s
  else
    let r := streamRead acq
    { s with grabbed := some r.1, frame := r.2 }

/-- Replay of the background `update` loop over a sequence of acquisition
outcomes. -/
def VideoStream.updateRun (s : VideoStreamState) (acqs : List (Option Frame)) :
    VideoStreamState :=
  acqs.foldl VideoStream.update s

/-- Model of `VideoStream.read()`: return `self.frame` — a plain, non-blocking read
of the shared slot. -/
def VideoStream.read (s : VideoStreamState) : Option Frame := s.frame

/-- One iteration of the main render loop's frame handling: take the frame
returned by `capture.read()` and call
`renderCrossHair(frame, crossHairX, crossHairY, imageWidth, imageHeight)`
on it, unconditionally.  Passing Python `None` (a failed acquisition) to
`cv2.line` raises, which is modelled as `Except.error`; on success the
rendered image is shown and the quit key polled. -/
def loopIteration (latest : Option Frame) (crossHairX crossHairY imageWidth imageHeight :
    Int) : Except Unit Frame :=
  match latest with
  | none => Except.error ()
  | some f => Except.ok (renderCrossHair f crossHairX crossHairY imageWidth imageHeight)

/-- The observable outcome of the module-level startup code. -/
structure StartupResult where
  retriedOpen : Bool
  imageWidth : Nat
  imageHeight : Nat
  crossHairX : Nat
  crossHairY : Nat
  entersRenderLoop : Bool
  initialSlot : Option Frame

/-- The module-level startup sequence of the source:
`capture = VideoStream().start()`; if the stream is not opened, retry
`capture.stream.open(0)` once; read the reported dimensions and centre the
crosshair via `defaultCrossHair`; then fall through into the `while True`
render loop unconditionally — there is no bail-out path.  `opened` is
`capture.stream.isOpened()`, `firstAcq` the outcome of the constructor's
first acquisition, `reportedWidth/Height` what `stream.get` reports (0 for
an unopened device). -/
def startup (opened : Bool) (firstAcq : Option Frame)
    (reportedWidth reportedHeight : Nat) : StartupResult :=
  let vs := VideoStream.init firstAcq
  let d := defaultCrossHair reportedWidth reportedHeight
  { retriedOpen := !opened
    imageWidth := d.1
    imageHeight := d.2.1
    crossHairX := d.2.2.1
    crossHairY := d.2.2.2
    entersRenderLoop := true
    initialSlot := VideoStream.read vs }

/-! ## Helper lemmas about the rendering model -/

theorem paintIf_paintIf (m m' : Int × Int → Bool) (c : Color) (f : Frame) :
    paintIf m c (paintIf m' c f) = paintIf (fun q => m q || m' q) c f := by
  funext q
  simp only [paintIf]
  by_cases hm : m q = true <;> by_cases hm' : m' q = true <;> simp [hm, hm']

/-- The pixels painted by `renderCrossHair` at position `(x, y)` on a
`w × h` image: the union of the nine strokes (all painted in
`CROSSHAIR_COLOR`, so the drawing order is irrelevant; listed in reverse
draw order, matching the later-draw-wins fold of the paint operations). -/
def crossHairPainted (x y w h : Int) (q : Int × Int) : Bool :=
  onSeg w h (x, h - CROSSHAIR_ACCENT1_LENGTH) (x, h - 1) 3 q ||
  onSeg w h (x, 0) (x, CROSSHAIR_ACCENT2_LENGTH) 3 q ||
  onSeg w h (w - CROSSHAIR_ACCENT1_LENGTH, y) (w - 1, y) 3 q ||
  onSeg w h (0, y) (CROSSHAIR_ACCENT2_LENGTH, y) 3 q ||
  onDisc w h (x, y) 1 q ||
  onSeg w h (x, y + CROSSHAIR_CENTER_SPACE) (x, h - 1) 1 q ||
  onSeg w h (x, 0) (x, y - CROSSHAIR_CENTER_SPACE) 1 q ||
  onSeg w h (x + CROSSHAIR_CENTER_SPACE, y) (w - 1, y) 1 q ||
  onSeg w h (0, y) (x - CROSSHAIR_CENTER_SPACE, y) 1 q

theorem renderCrossHair_apply (f : Frame) (x y w h : Int) (q : Int × Int) :
    renderCrossHair f x y w h q =
      if crossHairPainted x y w h q then CROSSHAIR_COLOR else f q := by
  simp only [renderCrossHair, renderLine, renderCircle, paintIf_paintIf, paintIf,
    crossHairPainted, Bool.or_assoc]

/-! ## Helper lemmas about the pointer state machine -/

theorem replayEvents_coords (es : List PointerEvent) :
    ∀ (d : Bool) (x0 y0 : Int),
      ((replayEvents ⟨x0, y0, d⟩ es).crossHairX, (replayEvents ⟨x0, y0, d⟩ es).crossHairY)
        = (lastDragTarget d es).getD (x0, y0) := by
  induction es with
  | nil => intro d x0 y0; rfl
  | cons e rest ih =>
      intro d x0 y0
      cases e with
      | press x y =>
          have hstep : replayEvents ⟨x0, y0, d⟩ (.press x y :: rest)
              = replayEvents ⟨x, y, true⟩ rest := rfl
          rw [hstep, ih true x y]
          simp only [lastDragTarget]
          cases lastDragTarget true rest <;> rfl
      | release x y =>
          have hstep : replayEvents ⟨x0, y0, d⟩ (.release x y :: rest)
              = replayEvents ⟨x0, y0, false⟩ rest := rfl
          rw [hstep, ih false x0 y0]
          simp only [lastDragTarget]
          cases lastDragTarget false rest <;> rfl
      | move x y =>
          cases hd : d with
          | true =>
              have hstep : replayEvents ⟨x0, y0, true⟩ (.move x y :: rest)
                  = replayEvents ⟨x, y, true⟩ rest := rfl
              rw [hstep, ih true x y]
              simp only [lastDragTarget]
              cases lastDragTarget true rest <;> rfl
          | false =>
              have hstep : replayEvents ⟨x0, y0, false⟩ (.move x y :: rest)
                  = replayEvents ⟨x0, y0, false⟩ rest := rfl
              rw [hstep, ih false x0 y0]
              simp only [lastDragTarget]
              cases lastDragTarget false rest <;> rfl
      | other x y =>
          have hstep : replayEvents ⟨x0, y0, d⟩ (.other x y :: rest)
              = replayEvents ⟨x0, y0, d⟩ rest := rfl
          rw [hstep, ih d x0 y0]
          simp only [lastDragTarget]
          cases lastDragTarget d rest <;> rfl

/-! ## Claims -/

/-- Claim C1: After replaying any sequence of pointer events through
`getMouseCoordinates` starting from the initial state (`mouseDown = false`),
the crosshair coordinates equal the coordinates of the last PRESS event, or
of the last MOVE event delivered while dragging was true, whichever came
later; PRESS sets the drag flag and moves the crosshair to `(x, y)`, RELEASE
clears the flag and leaves the coordinates unchanged, and MOVE updates the
coordinates only while the drag flag is set and is otherwise a no-op. -/
theorem c1_pointer_event_replay :
    (∀ (s : PointerState) (x y : Int),
        getMouseCoordinates s (.press x y) = ⟨x, y, true⟩) ∧
    (∀ (s : PointerState) (x y : Int),
        getMouseCoordinates s (.release x y) = ⟨s.crossHairX, s.crossHairY, false⟩) ∧
    (∀ (s : PointerState) (x y : Int),
        getMouseCoordinates s (.move x y) =
          if s.mouseDown then ⟨x, y, s.mouseDown⟩ else s) ∧
    (∀ (x0 y0 : Int) (es : List PointerEvent),
        ((replayEvents ⟨x0, y0, false⟩ es).crossHairX,
            (replayEvents ⟨x0, y0, false⟩ es).crossHairY)
          = (lastDragTarget false es).getD (x0, y0)) := by
  refine ⟨fun s x y => rfl, fun s x y => rfl, fun s x y => ?_, fun x0 y0 es =>
    replayEvents_coords es false x0 y0⟩
  cases hm : s.mouseDown <;> simp [getMouseCoordinates, setCrossHair, hm]

/-- Claim C9: `renderCrossHair` retains no state between calls: in this
embedding it is a pure function of `(frame, x, y, width, height)`, so two
calls with identical inputs yield identical pixel content by reflexivity.
Since the Python function composites in place (the second of two back-to-back
calls receives the first one's output as its frame), "calling it twice with
identical inputs produces identical output pixel content" is the statement
that re-compositing the crosshair onto an already-composited frame changes
nothing, which is what this theorem proves. -/
theorem c9_render_idempotent (f : Frame) (x y w h : Int) :
    renderCrossHair (renderCrossHair f x y w h) x y w h = renderCrossHair f x y w h := by
  funext q
  rw [renderCrossHair_apply, renderCrossHair_apply]
  by_cases hq : crossHairPainted x y w h q = true <;> simp [hq]

/-- Squares of integers at least 2 in absolute value are at least 4. -/
theorem four_le_mul_self_of_natAbs {a : Int} (ha : 1 < a.natAbs) : 4 ≤ a * a := by
  have h1 : 2 * 2 ≤ a.natAbs * a.natAbs := Nat.mul_le_mul ha ha
  have h2 : ((a.natAbs * a.natAbs : Nat) : Int) = a * a := Int.natAbs_mul_self
  omega

/-- Claim C10: For every frame and coordinates, `renderCrossHair` changes only
pixels within one pixel of row `y` or of column `x`: the 1px arms lie on row
`y` / column `x`, the 3px accent ticks cover rows `y-1..y+1` / columns
`x-1..x+1`, and the radius-1 disc lies within one pixel of both; every pixel
farther than one pixel from both row `y` and column `x` keeps its original
value. -/
theorem c10_untouched_outside_bands (f : Frame) (x y w h : Int) (q : Int × Int)
    (hqx : 1 < (q.1 - x).natAbs) (hqy : 1 < (q.2 - y).natAbs) :
    renderCrossHair f x y w h q = f q := by
  obtain ⟨qx, qy⟩ := q
  have hx4 : 4 ≤ (qx - x) * (qx - x) := four_le_mul_self_of_natAbs hqx
  have hy4 : 4 ≤ (qy - y) * (qy - y) := four_le_mul_self_of_natAbs hqy
  rw [renderCrossHair_apply]
  have hdisc : onDisc w h (x, y) 1 (qx, qy) = false := by
    rw [Bool.eq_false_iff]
    intro hd
    simp only [onDisc, inClip, Bool.and_eq_true, decide_eq_true_eq] at hd
    have := hd.2
    linarith
  have hmask : crossHairPainted x y w h (qx, qy) = false := by
    rw [Bool.eq_false_iff]
    intro hm
    simp only [crossHairPainted, hdisc, Bool.or_false, Bool.false_or, onSeg, inClip,
      between, CROSSHAIR_CENTER_SPACE, CROSSHAIR_ACCENT1_LENGTH, CROSSHAIR_ACCENT2_LENGTH,
      Bool.or_eq_true, Bool.and_eq_true, decide_eq_true_eq] at hm
    omega
  simp [hmask]

/-- Witness for C10 at a concrete input: the pixel `(10, 10)` is more than
one pixel away from both column 50 and row 50, and rendering on a constant
black frame leaves it black. -/
theorem c10_untouched_outside_bands_witness :
    (1 < ((10 : Int) - 50).natAbs ∧ 1 < ((10 : Int) - 50).natAbs) ∧
      renderCrossHair (fun _ => (0, 0, 0)) 50 50 100 100 (10, 10) = (0, 0, 0) :=
  ⟨⟨by decide, by decide⟩,
    c10_untouched_outside_bands (fun _ => (0, 0, 0)) 50 50 100 100 (10, 10)
      (by decide) (by decide)⟩

/-- The frame component of `stream.read()` is the acquisition outcome itself. -/
theorem streamRead_snd (acq : Option Frame) : (streamRead acq).2 = acq := by
  cases acq <;> rfl

/-- The background loop's slot after any replay is the last-written value:
last-write-wins over the sequence of acquisition outcomes. -/
theorem updateRun_frame (acqs : List (Option Frame)) :
    ∀ s : VideoStreamState, s.stopped = false →
      (VideoStream.updateRun s acqs).frame = acqs.foldl (fun _ a => a) s.frame := by
  induction acqs with
  | nil => intro s _; rfl
  | cons a rest ih =>
      intro s hs
      have hstep : VideoStream.updateRun s (a :: rest)
          = VideoStream.updateRun (VideoStream.update s a) rest := rfl
      rw [hstep, ih _ (by simp [VideoStream.update, hs])]
      simp [VideoStream.update, hs, streamRead_snd]

/-- Claim C3 counterexample: The claim "`read()` never returns a null frame
after the first successful acquisition, even if every subsequent acquisition
fails" is false on the code: start a stream whose first acquisition succeeds
(a black frame), let the background `update` loop perform one failed
acquisition, and `read()` returns `None` — `update` stores
`self.stream.read()`'s result unconditionally, and a failed
`cv2.VideoCapture.read()` yields `(False, None)`. -/
theorem c3_counterexample :
    VideoStream.read
        (VideoStream.updateRun (VideoStream.init (some (fun _ => (0, 0, 0)))) [none])
      = none := rfl

/-- Claim C3 amended: `read()` is a plain non-blocking projection of the
shared slot, and the slot is last-write-wins: after the constructor's
acquisition `firstAcq` and any sequence `acqs` of background acquisitions,
`read()` returns the outcome of the most recent acquisition — non-null
exactly when that acquisition succeeded.  In particular the stream retains
the last good frame only while acquisitions keep succeeding; a failed
acquisition overwrites the slot with null. -/
theorem c3_read_last_write_wins (firstAcq : Option Frame) (acqs : List (Option Frame)) :
    VideoStream.read (VideoStream.updateRun (VideoStream.init firstAcq) acqs)
      = acqs.foldl (fun _ a => a) firstAcq := by
  have hinit : (VideoStream.init firstAcq).frame = firstAcq := streamRead_snd firstAcq
  have := updateRun_frame acqs (VideoStream.init firstAcq) rfl
  rw [VideoStream.read, this, hinit]

/-- Claim C4 counterexample: The claim "if the frame returned by `read()` is
empty/invalid, the loop skips rendering for that iteration and still polls
for the quit key" is false on the code: the render loop passes
`capture.read()`'s result straight to `renderCrossHair` with no check, so an
iteration that receives `None` raises inside `cv2.line` instead of
skipping. -/
theorem c4_counterexample :
    loopIteration none 50 50 100 100 = Except.error () := rfl

/-- Claim C4 amended: The render loop renders unconditionally on every
iteration: a valid frame is composited (and then shown and the quit key
polled), while a null frame from `read()` makes the iteration raise inside
`cv2.line` — the loop neither skips the bad frame nor reaches the quit-key
poll in that case. -/
theorem c4_loop_renders_unconditionally :
    (∀ x y w h : Int,
        loopIteration none x y w h = Except.error ()) ∧
    (∀ (f : Frame) (x y w h : Int),
        loopIteration (some f) x y w h = Except.ok (renderCrossHair f x y w h)) :=
  ⟨fun _ _ _ _ => rfl, fun _ _ _ _ _ => rfl⟩

/-- Claim C7 counterexample: The claim "if the camera cannot be opened at
startup, the program terminates with a non-zero exit code and the render
loop is never entered" is false on the code: with the camera unopened (so
the constructor's first acquisition failed and the reported dimensions are
0), the module-level startup still falls through into the render loop, with
a null frame in the slot. -/
theorem c7_counterexample :
    (startup false none 0 0).entersRenderLoop = true ∧
      (startup false none 0 0).initialSlot = none := ⟨rfl, rfl⟩

/-- Claim C7 amended: On camera-open failure the startup code only retries
`capture.stream.open(0)` once and then unconditionally proceeds into the
render loop — there is no startup termination path, no diagnostic, and no
guard on the initial frame: the loop is entered with whatever the first
acquisition produced, and when that acquisition failed the very first
iteration raises inside `cv2.line` (an unhandled exception, not a
deliberate exit). -/
theorem c7_startup_never_bails :
    (∀ (opened : Bool) (firstAcq : Option Frame) (rWidth rHeight : Nat),
        (startup opened firstAcq rWidth rHeight).entersRenderLoop = true ∧
        (startup opened firstAcq rWidth rHeight).retriedOpen = !opened ∧
        (startup opened firstAcq rWidth rHeight).initialSlot = firstAcq) ∧
    (∀ (opened : Bool) (rWidth rHeight : Nat) (x y w h : Int),
        loopIteration (startup opened none rWidth rHeight).initialSlot x y w h
          = Except.error ()) := by
  constructor
  · intro opened firstAcq rWidth rHeight
    refine ⟨rfl, rfl, ?_⟩
    simp [startup, VideoStream.read, VideoStream.init, streamRead_snd]
  · intro opened rWidth rHeight x y w h
    rfl

/-- Claim C6: At startup `defaultCrossHair` puts the crosshair at the geometric
centre of the capture source's reported frame dimensions, computed by Python
2 integer (floor) division, so both coordinates are integers: for a 640×480
device the result is `(320, 240)`, and for any even dimensions the
coordinates are the exact halves. -/
theorem c6_initial_center :
    defaultCrossHair 640 480 = (640, 480, 320, 240) ∧
      ∀ w h : Nat, 2 ∣ w → 2 ∣ h →
        2 * (defaultCrossHair w h).2.2.1 = w ∧ 2 * (defaultCrossHair w h).2.2.2 = h := by
  refine ⟨rfl, fun w h hw hh => ?_⟩
  simp only [defaultCrossHair]
  omega

/-- Witness for C6: the 640×480 device of the spec's scenario has even
dimensions and the initialized crosshair is exactly its centre. -/
theorem c6_initial_center_witness :
    ((2 ∣ 640) ∧ (2 ∣ 480)) ∧
      2 * (defaultCrossHair 640 480).2.2.1 = 640 ∧
      2 * (defaultCrossHair 640 480).2.2.2 = 480 :=
  ⟨⟨⟨320, rfl⟩, ⟨240, rfl⟩⟩, c6_initial_center.2 640 480 ⟨320, rfl⟩ ⟨240, rfl⟩⟩

/-- The union of the four 1px gapped arm segments of the crosshair (the
first four drawing calls of `renderCrossHair`). -/
def crossHairArms (x y w h : Int) (q : Int × Int) : Bool :=
  onSeg w h (0, y) (x - CROSSHAIR_CENTER_SPACE, y) 1 q ||
  onSeg w h (x + CROSSHAIR_CENTER_SPACE, y) (w - 1, y) 1 q ||
  onSeg w h (x, 0) (x, y - CROSSHAIR_CENTER_SPACE) 1 q ||
  onSeg w h (x, y + CROSSHAIR_CENTER_SPACE) (x, h - 1) 1 q

/-- Claim C2 counterexample: The claim that the unpainted gap spans exactly
`[x-10, x+10]` is false on the code: `cv2.line` paints both endpoints, so at
`(x, y) = (50, 50)` on a 100×100 frame the column `x - 10 = 40` — inside the
claimed gap interval — is painted on row `y` by the left arm. -/
theorem c2_counterexample :
    ¬ (∀ c : Int, 0 ≤ c → c ≤ 99 →
        (crossHairArms 50 50 100 100 (c, 50) = false ↔ 40 ≤ c ∧ c ≤ 60)) := by
  intro hclaim
  have hpainted : crossHairArms 50 50 100 100 (40, 50) = true := by decide
  have hgap := (hclaim 40 (by norm_num) (by norm_num)).mpr ⟨le_refl 40, by norm_num⟩
  rw [hpainted] at hgap
  exact Bool.noConfusion hgap

/-- Claim C2 amended: For `x`, `y` at least 10px inside the frame (so that no
arm segment inverts), the four 1px arms paint exactly the segments the code
requests — row `y` from column 0 to `x-10` and from `x+10` to `w-1`, column
`x` from row 0 to `y-10` and from `y+10` to `h-1`, endpoints included — and
therefore the columns of row `y` left unpainted by the arms form the open
interval `(x-10, x+10)`, i.e. `x-9..x+9`, and the rows of column `x` left
unpainted form `(y-10, y+10)`. -/
theorem c2_arm_geometry (x y w h : Int) (hx1 : 10 ≤ x) (hx2 : x ≤ w - 11)
    (hy1 : 10 ≤ y) (hy2 : y ≤ h - 11) :
    (∀ c : Int, onSeg w h (0, y) (x - CROSSHAIR_CENTER_SPACE, y) 1 (c, y) = true
        ↔ 0 ≤ c ∧ c ≤ x - 10) ∧
    (∀ c : Int, onSeg w h (x + CROSSHAIR_CENTER_SPACE, y) (w - 1, y) 1 (c, y) = true
        ↔ x + 10 ≤ c ∧ c ≤ w - 1) ∧
    (∀ r : Int, onSeg w h (x, 0) (x, y - CROSSHAIR_CENTER_SPACE) 1 (x, r) = true
        ↔ 0 ≤ r ∧ r ≤ y - 10) ∧
    (∀ r : Int, onSeg w h (x, y + CROSSHAIR_CENTER_SPACE) (x, h - 1) 1 (x, r) = true
        ↔ y + 10 ≤ r ∧ r ≤ h - 1) ∧
    (∀ c : Int, 0 ≤ c → c ≤ w - 1 →
        (crossHairArms x y w h (c, y) = false ↔ x - 10 < c ∧ c < x + 10)) ∧
    (∀ r : Int, 0 ≤ r → r ≤ h - 1 →
        (crossHairArms x y w h (x, r) = false ↔ y - 10 < r ∧ r < y + 10)) := by
  refine ⟨fun c => ?_, fun c => ?_, fun r => ?_, fun r => ?_,
    fun c hc1 hc2 => ?_, fun r hr1 hr2 => ?_⟩ <;>
    simp only [crossHairArms, onSeg, inClip, between, CROSSHAIR_CENTER_SPACE,
      Bool.or_eq_false_iff, Bool.or_eq_true, Bool.and_eq_true, Bool.and_eq_false_iff,
      decide_eq_true_eq, decide_eq_false_iff_not, eq_self_iff_true, true_and, and_true,
      false_or, or_false, not_true, false_and, and_false, true_or, or_true] <;>
    omega

/-- Witness for C2 at a concrete input: with the crosshair at `(50, 50)` on
a 100×100 frame, column 41 of row 50 is unpainted by the arms and lies in
the open gap `(40, 60)`. -/
theorem c2_arm_geometry_witness :
    ((10 : Int) ≤ 50 ∧ (50 : Int) ≤ 100 - 11) ∧
      (crossHairArms 50 50 100 100 (41, 50) = false ↔ 40 < (41 : Int) ∧ (41 : Int) < 60) :=
  ⟨⟨by norm_num, by norm_num⟩,
    (c2_arm_geometry 50 50 100 100 (by norm_num) (by norm_num) (by norm_num)
      (by norm_num)).2.2.2.2.1 41 (by norm_num) (by norm_num)⟩

/-- The columns of row `y` painted by an axis-aligned stroke on a `w × h`
image — the horizontal extent of a tick along its own line. -/
def hSegColumns (w h : Int) (p1 p2 : Int × Int) (t : Int) (y : Int) : Finset Int :=
  (Finset.Icc 0 (w - 1)).filter fun c => onSeg w h p1 p2 t (c, y) = true

/-- The rows of column `x` painted by an axis-aligned stroke on a `w × h`
image — the vertical extent of a tick along its own line. -/
def vSegRows (w h : Int) (p1 p2 : Int × Int) (t : Int) (x : Int) : Finset Int :=
  (Finset.Icc 0 (h - 1)).filter fun r => onSeg w h p1 p2 t (x, r) = true

/-- Claim C5 counterexample: The claimed 20px/21px length asymmetry of the
accent ticks does not exist in the drawn output: on a 100×100 frame the
left tick (endpoints columns 0 and 20) and the right tick (endpoints
columns 79 and 99) each paint exactly 21 columns of their row — as do the
top and bottom ticks for their rows — so "a 20px-long segment at the left
edge and a 21px-long segment at the right edge" is false under any single
measure (all four coordinate spans are 20, all four pixel counts are 21). -/
theorem c5_counterexample :
    (hSegColumns 100 100 (0, 50) (CROSSHAIR_ACCENT2_LENGTH, 50) 3 50).card = 21 ∧
    (hSegColumns 100 100 (100 - CROSSHAIR_ACCENT1_LENGTH, 50) (100 - 1, 50) 3 50).card = 21 ∧
    (vSegRows 100 100 (50, 0) (50, CROSSHAIR_ACCENT2_LENGTH) 3 50).card = 21 ∧
    (vSegRows 100 100 (50, 100 - CROSSHAIR_ACCENT1_LENGTH) (50, 100 - 1) 3 50).card = 21 ∧
    ¬ ((hSegColumns 100 100 (0, 50) (CROSSHAIR_ACCENT2_LENGTH, 50) 3 50).card = 20 ∧
       (hSegColumns 100 100 (100 - CROSSHAIR_ACCENT1_LENGTH, 50) (100 - 1, 50) 3 50).card
         = 21) := by
  decide

/-- Claim C5 amended: `renderCrossHair` draws exactly four 3px-thick accent
ticks in the fixed crosshair colour, with the endpoints the code requests:
on row `y` the left tick spans columns `0..20` and the right tick columns
`w-21..w-1`; on column `x` the top tick spans rows `0..20` and the bottom
tick rows `h-21..h-1`.  The constants 20 (`CROSSHAIR_ACCENT2_LENGTH`, inner
endpoint of the edge-anchored ticks) and 21 (`CROSSHAIR_ACCENT1_LENGTH`,
offset of the far ticks from the image dimension) differ, but the painted
extents do not: each tick covers exactly 21 pixels along its line
(coordinate span 20). -/
theorem c5_accent_ticks (x y w h : Int) (hw : 21 ≤ w) (hh : 21 ≤ h)
    (hx1 : 0 ≤ x) (hx2 : x ≤ w - 1) (hy1 : 0 ≤ y) (hy2 : y ≤ h - 1) :
    (hSegColumns w h (0, y) (CROSSHAIR_ACCENT2_LENGTH, y) 3 y = Finset.Icc 0 20 ∧
     hSegColumns w h (w - CROSSHAIR_ACCENT1_LENGTH, y) (w - 1, y) 3 y
       = Finset.Icc (w - 21) (w - 1) ∧
     vSegRows w h (x, 0) (x, CROSSHAIR_ACCENT2_LENGTH) 3 x = Finset.Icc 0 20 ∧
     vSegRows w h (x, h - CROSSHAIR_ACCENT1_LENGTH) (x, h - 1) 3 x
       = Finset.Icc (h - 21) (h - 1)) ∧
    ((hSegColumns w h (0, y) (CROSSHAIR_ACCENT2_LENGTH, y) 3 y).card = 21 ∧
     (hSegColumns w h (w - CROSSHAIR_ACCENT1_LENGTH, y) (w - 1, y) 3 y).card = 21 ∧
     (vSegRows w h (x, 0) (x, CROSSHAIR_ACCENT2_LENGTH) 3 x).card = 21 ∧
     (vSegRows w h (x, h - CROSSHAIR_ACCENT1_LENGTH) (x, h - 1) 3 x).card = 21) := by
  have hL : hSegColumns w h (0, y) (CROSSHAIR_ACCENT2_LENGTH, y) 3 y = Finset.Icc 0 20 := by
    ext c
    simp only [hSegColumns, Finset.mem_filter, Finset.mem_Icc, onSeg, inClip, between,
      CROSSHAIR_ACCENT2_LENGTH, Bool.or_eq_true, Bool.and_eq_true, decide_eq_true_eq,
      eq_self_iff_true, true_and, and_true, false_or, or_false, not_true, false_and,
      and_false, true_or, or_true]
    omega
  have hR : hSegColumns w h (w - CROSSHAIR_ACCENT1_LENGTH, y) (w - 1, y) 3 y
      = Finset.Icc (w - 21) (w - 1) := by
    ext c
    simp only [hSegColumns, Finset.mem_filter, Finset.mem_Icc, onSeg, inClip, between,
      CROSSHAIR_ACCENT1_LENGTH, Bool.or_eq_true, Bool.and_eq_true, decide_eq_true_eq,
      eq_self_iff_true, true_and, and_true, false_or, or_false, not_true, false_and,
      and_false, true_or, or_true]
    omega
  have hT : vSegRows w h (x, 0) (x, CROSSHAIR_ACCENT2_LENGTH) 3 x = Finset.Icc 0 20 := by
    ext r
    simp only [vSegRows, Finset.mem_filter, Finset.mem_Icc, onSeg, inClip, between,
      CROSSHAIR_ACCENT2_LENGTH, Bool.or_eq_true, Bool.and_eq_true, decide_eq_true_eq,
      eq_self_iff_true, true_and, and_true, false_or, or_false, not_true, false_and,
      and_false, true_or, or_true]
    omega
  have hB : vSegRows w h (x, h - CROSSHAIR_ACCENT1_LENGTH) (x, h - 1) 3 x
      = Finset.Icc (h - 21) (h - 1) := by
    ext r
    simp only [vSegRows, Finset.mem_filter, Finset.mem_Icc, onSeg, inClip, between,
      CROSSHAIR_ACCENT1_LENGTH, Bool.or_eq_true, Bool.and_eq_true, decide_eq_true_eq,
      eq_self_iff_true, true_and, and_true, false_or, or_false, not_true, false_and,
      and_false, true_or, or_true]
    omega
  refine ⟨⟨hL, hR, hT, hB⟩, ?_, ?_, ?_, ?_⟩
  · rw [hL, Int.card_Icc]; omega
  · rw [hR, Int.card_Icc]; omega
  · rw [hT, Int.card_Icc]; omega
  · rw [hB, Int.card_Icc]; omega

/-- Witness for C5 at a concrete input: the boundary hypotheses hold for a
100×100 frame with the crosshair at `(50, 50)`, and the left accent tick
paints exactly the columns `0..20`. -/
theorem c5_accent_ticks_witness :
    ((21 : Int) ≤ 100 ∧ (0 : Int) ≤ 50 ∧ (50 : Int) ≤ 100 - 1) ∧
      hSegColumns 100 100 (0, 50) (CROSSHAIR_ACCENT2_LENGTH, 50) 3 50 = Finset.Icc 0 20 :=
  ⟨⟨by norm_num, by norm_num, by norm_num⟩,
    (c5_accent_ticks 50 50 100 100 (by norm_num) (by norm_num) (by norm_num)
      (by norm_num) (by norm_num) (by norm_num)).1.1⟩

/-- Modelled from the spec's edge-case wording: identical to
`renderCrossHair` except that each of the four gapped arm segments is
dropped entirely (a no-op) whenever its endpoints are inverted
(start > end); the disc and the four accent ticks are drawn as usual. -/
def renderCrossHairSkipInverted (frame : Frame)
    (crossHairX crossHairY imageWidth imageHeight : Int) : Frame :=
  let img := if 0 > crossHairX - CROSSHAIR_CENTER_SPACE then frame else
    renderLine frame (0, crossHairY) (crossHairX - CROSSHAIR_CENTER_SPACE, crossHairY)
      CROSSHAIR_COLOR 1 imageWidth imageHeight
  let img := if crossHairX + CROSSHAIR_CENTER_SPACE > imageWidth - 1 then img else
    renderLine img (crossHairX + CROSSHAIR_CENTER_SPACE, crossHairY)
      (imageWidth - 1, crossHairY) CROSSHAIR_COLOR 1 imageWidth imageHeight
  let img := if 0 > crossHairY - CROSSHAIR_CENTER_SPACE then img else
    renderLine img (crossHairX, 0) (crossHairX, crossHairY - CROSSHAIR_CENTER_SPACE)
      CROSSHAIR_COLOR 1 imageWidth imageHeight
  let img := if crossHairY + CROSSHAIR_CENTER_SPACE > imageHeight - 1 then img else
    renderLine img (crossHairX, crossHairY + CROSSHAIR_CENTER_SPACE)
      (crossHairX, imageHeight - 1) CROSSHAIR_COLOR 1 imageWidth imageHeight
  let img := renderCircle img
    (crossHairX, crossHairY) 1 CROSSHAIR_COLOR (-1) imageWidth imageHeight
  let img := renderLine img
    (0, crossHairY) (CROSSHAIR_ACCENT2_LENGTH, crossHairY)
    CROSSHAIR_COLOR 3 imageWidth imageHeight
  let img := renderLine img
    (imageWidth - CROSSHAIR_ACCENT1_LENGTH, crossHairY) (imageWidth - 1, crossHairY)
    CROSSHAIR_COLOR 3 imageWidth imageHeight
  let img := renderLine img
    (crossHairX, 0) (crossHairX, CROSSHAIR_ACCENT2_LENGTH)
    CROSSHAIR_COLOR 3 imageWidth imageHeight
  let img := renderLine img
    (crossHairX, imageHeight - CROSSHAIR_ACCENT1_LENGTH) (crossHairX, imageHeight - 1)
    CROSSHAIR_COLOR 3 imageWidth imageHeight
  img

/-- Skipping one branch of an `if` that otherwise paints is the same as
guarding the paint mask. -/
theorem paintIf_ite (c : Prop) [Decidable c] (m : Int × Int → Bool) (col : Color)
    (f : Frame) :
    (if c then f else paintIf m col f) = paintIf (fun q => !decide c && m q) col f := by
  funext q
  by_cases h : c <;> simp [h, paintIf]

/-- The mask of `renderCrossHairSkipInverted`, in reverse draw order. -/
def crossHairPaintedSkip (x y w h : Int) (q : Int × Int) : Bool :=
  onSeg w h (x, h - CROSSHAIR_ACCENT1_LENGTH) (x, h - 1) 3 q ||
  onSeg w h (x, 0) (x, CROSSHAIR_ACCENT2_LENGTH) 3 q ||
  onSeg w h (w - CROSSHAIR_ACCENT1_LENGTH, y) (w - 1, y) 3 q ||
  onSeg w h (0, y) (CROSSHAIR_ACCENT2_LENGTH, y) 3 q ||
  onDisc w h (x, y) 1 q ||
  (!decide (y + CROSSHAIR_CENTER_SPACE > h - 1) &&
    onSeg w h (x, y + CROSSHAIR_CENTER_SPACE) (x, h - 1) 1 q) ||
  (!decide (0 > y - CROSSHAIR_CENTER_SPACE) &&
    onSeg w h (x, 0) (x, y - CROSSHAIR_CENTER_SPACE) 1 q) ||
  (!decide (x + CROSSHAIR_CENTER_SPACE > w - 1) &&
    onSeg w h (x + CROSSHAIR_CENTER_SPACE, y) (w - 1, y) 1 q) ||
  (!decide (0 > x - CROSSHAIR_CENTER_SPACE) &&
    onSeg w h (0, y) (x - CROSSHAIR_CENTER_SPACE, y) 1 q)

theorem renderCrossHairSkipInverted_apply (f : Frame) (x y w h : Int) (q : Int × Int) :
    renderCrossHairSkipInverted f x y w h q =
      if crossHairPaintedSkip x y w h q then CROSSHAIR_COLOR else f q := by
  simp only [renderCrossHairSkipInverted, renderLine, renderCircle, paintIf_ite]
  simp only [paintIf_paintIf]
  simp only [paintIf, crossHairPaintedSkip, Bool.or_assoc]

/-- An inverted left arm (x within 10px of the left edge) paints at most the
edge pixel `(0, y)`, which the left accent tick paints anyway. -/
theorem arm_subsume_left (x y w h qx qy : Int) (hx : 0 > x - CROSSHAIR_CENTER_SPACE)
    (hq : onSeg w h (0, y) (x - CROSSHAIR_CENTER_SPACE, y) 1 (qx, qy) = true) :
    onSeg w h (0, y) (CROSSHAIR_ACCENT2_LENGTH, y) 3 (qx, qy) = true := by
  simp only [onSeg, inClip, between, CROSSHAIR_CENTER_SPACE, CROSSHAIR_ACCENT2_LENGTH,
    Bool.or_eq_true, Bool.and_eq_true, decide_eq_true_eq, eq_self_iff_true, true_and,
    and_true, false_or, or_false, gt_iff_lt] at hx hq ⊢
  omega

/-- An inverted right arm (x within 10px of the right edge) paints at most
the edge pixel `(w-1, y)`, which the right accent tick paints anyway. -/
theorem arm_subsume_right (x y w h qx qy : Int)
    (hx : x + CROSSHAIR_CENTER_SPACE > w - 1)
    (hq : onSeg w h (x + CROSSHAIR_CENTER_SPACE, y) (w - 1, y) 1 (qx, qy) = true) :
    onSeg w h (w - CROSSHAIR_ACCENT1_LENGTH, y) (w - 1, y) 3 (qx, qy) = true := by
  simp only [onSeg, inClip, between, CROSSHAIR_CENTER_SPACE, CROSSHAIR_ACCENT1_LENGTH,
    Bool.or_eq_true, Bool.and_eq_true, decide_eq_true_eq, eq_self_iff_true, true_and,
    and_true, false_or, or_false, gt_iff_lt] at hx hq ⊢
  omega

/-- An inverted top arm (y within 10px of the top edge) paints at most the
edge pixel `(x, 0)`, which the top accent tick paints anyway. -/
theorem arm_subsume_top (x y w h qx qy : Int) (hy : 0 > y - CROSSHAIR_CENTER_SPACE)
    (hq : onSeg w h (x, 0) (x, y - CROSSHAIR_CENTER_SPACE) 1 (qx, qy) = true) :
    onSeg w h (x, 0) (x, CROSSHAIR_ACCENT2_LENGTH) 3 (qx, qy) = true := by
  simp only [onSeg, inClip, between, CROSSHAIR_CENTER_SPACE, CROSSHAIR_ACCENT2_LENGTH,
    Bool.or_eq_true, Bool.and_eq_true, decide_eq_true_eq, eq_self_iff_true, true_and,
    and_true, false_or, or_false, gt_iff_lt] at hy hq ⊢
  omega

/-- An inverted bottom arm (y within 10px of the bottom edge) paints at most
the edge pixel `(x, h-1)`, which the bottom accent tick paints anyway. -/
theorem arm_subsume_bottom (x y w h qx qy : Int)
    (hy : y + CROSSHAIR_CENTER_SPACE > h - 1)
    (hq : onSeg w h (x, y + CROSSHAIR_CENTER_SPACE) (x, h - 1) 1 (qx, qy) = true) :
    onSeg w h (x, h - CROSSHAIR_ACCENT1_LENGTH) (x, h - 1) 3 (qx, qy) = true := by
  simp only [onSeg, inClip, between, CROSSHAIR_CENTER_SPACE, CROSSHAIR_ACCENT1_LENGTH,
    Bool.or_eq_true, Bool.and_eq_true, decide_eq_true_eq, eq_self_iff_true, true_and,
    and_true, false_or, or_false, gt_iff_lt] at hy hq ⊢
  omega

/-- When an arm's endpoints are inverted, the only pixel the clipped
degenerate segment can paint is an edge pixel that the corresponding accent
tick paints anyway, so the two masks agree everywhere. -/
theorem crossHairPaintedSkip_eq (x y w h : Int) (q : Int × Int) :
    crossHairPaintedSkip x y w h q = crossHairPainted x y w h q := by
  obtain ⟨qx, qy⟩ := q
  apply Bool.eq_iff_iff.mpr
  simp only [crossHairPaintedSkip, crossHairPainted, Bool.or_eq_true, Bool.and_eq_true,
    Bool.not_eq_true', decide_eq_false_iff_not]
  constructor
  · rintro ((((((((ha | ha) | ha) | ha) | ha) | ⟨hg, ha⟩) | ⟨hg, ha⟩) | ⟨hg, ha⟩) |
        ⟨hg, ha⟩)
    · exact Or.inl (Or.inl (Or.inl (Or.inl (Or.inl (Or.inl (Or.inl (Or.inl ha)))))))
    · exact Or.inl (Or.inl (Or.inl (Or.inl (Or.inl (Or.inl (Or.inl (Or.inr ha)))))))
    · exact Or.inl (Or.inl (Or.inl (Or.inl (Or.inl (Or.inl (Or.inr ha))))))
    · exact Or.inl (Or.inl (Or.inl (Or.inl (Or.inl (Or.inr ha)))))
    · exact Or.inl (Or.inl (Or.inl (Or.inl (Or.inr ha))))
    · exact Or.inl (Or.inl (Or.inl (Or.inr ha)))
    · exact Or.inl (Or.inl (Or.inr ha))
    · exact Or.inl (Or.inr ha)
    · exact Or.inr ha
  · rintro ((((((((ha | ha) | ha) | ha) | ha) | ha) | ha) | ha) | ha)
    · exact Or.inl (Or.inl (Or.inl (Or.inl (Or.inl (Or.inl (Or.inl (Or.inl ha)))))))
    · exact Or.inl (Or.inl (Or.inl (Or.inl (Or.inl (Or.inl (Or.inl (Or.inr ha)))))))
    · exact Or.inl (Or.inl (Or.inl (Or.inl (Or.inl (Or.inl (Or.inr ha))))))
    · exact Or.inl (Or.inl (Or.inl (Or.inl (Or.inl (Or.inr ha)))))
    · exact Or.inl (Or.inl (Or.inl (Or.inl (Or.inr ha))))
    · by_cases hinv : y + CROSSHAIR_CENTER_SPACE > h - 1
      · exact Or.inl (Or.inl (Or.inl (Or.inl (Or.inl (Or.inl (Or.inl
          (Or.inl (arm_subsume_bottom x y w h qx qy hinv ha))))))))
      · exact Or.inl (Or.inl (Or.inl (Or.inr ⟨hinv, ha⟩)))
    · by_cases hinv : 0 > y - CROSSHAIR_CENTER_SPACE
      · exact Or.inl (Or.inl (Or.inl (Or.inl (Or.inl (Or.inl (Or.inl
          (Or.inr (arm_subsume_top x y w h qx qy hinv ha))))))))
      · exact Or.inl (Or.inl (Or.inr ⟨hinv, ha⟩))
    · by_cases hinv : x + CROSSHAIR_CENTER_SPACE > w - 1
      · exact Or.inl (Or.inl (Or.inl (Or.inl (Or.inl (Or.inl
          (Or.inr (arm_subsume_right x y w h qx qy hinv ha)))))))
      · exact Or.inl (Or.inr ⟨hinv, ha⟩)
    · by_cases hinv : 0 > x - CROSSHAIR_CENTER_SPACE
      · exact Or.inl (Or.inl (Or.inl (Or.inl (Or.inl
          (Or.inr (arm_subsume_left x y w h qx qy hinv ha))))))
      · exact Or.inr ⟨hinv, ha⟩

/-- Claim C8: `renderCrossHair` is total: for every integer coordinate pair —
including positions within 10px of an edge, where the gapped arm segments
invert (start > end) — every output pixel is either the crosshair colour or
the input pixel, and the inverted (or zero-length, after clipping) arm
segments are visual no-ops: the rendered image equals the one produced with
every inverted arm segment skipped outright, matching the clipping
behaviour of the underlying line primitive, which never raises. -/
theorem c8_inverted_arms_are_noops :
    (∀ (f : Frame) (x y w h : Int) (q : Int × Int),
        renderCrossHair f x y w h q = CROSSHAIR_COLOR ∨
          renderCrossHair f x y w h q = f q) ∧
    (∀ (f : Frame) (x y w h : Int),
        renderCrossHair f x y w h = renderCrossHairSkipInverted f x y w h) := by
  constructor
  · intro f x y w h q
    rw [renderCrossHair_apply]
    by_cases hq : crossHairPainted x y w h q = true <;> simp [hq]
  · intro f x y w h
    funext q
    rw [renderCrossHair_apply, renderCrossHairSkipInverted_apply, crossHairPaintedSkip_eq]

end DigitalScope

